import Mathlib

/-!
Verification of the trivial-todo-app core (storage + manager) against its
specification.  The Python source in `src/trivial_todo_app/` is shallowly
embedded below: pure data manipulation becomes Lean functions, file-system
effects become explicit state passing, and Python exceptions become
`Except` values.
-/

namespace TrivialTodo

/-- Python exceptions that the embedded code can raise.  `valueError` is
`ValueError`, `typeError` is `TypeError`, `keyError` is `KeyError`, and
`ioError` stands for the `OSError` family raised by file operations. -/
inductive PyErr where
  | valueError (msg : String)
  | typeError (msg : String)
  | keyError (key : String)
  | ioError (msg : String)
deriving DecidableEq

/-- JSON values as produced by Python's `json.loads`.  Numbers are
restricted to integers, which covers every value this application reads or
writes (ids are ints, other fields are strings and booleans). -/
inductive JValue where
  | null
  | bool (b : Bool)
  | int (n : Int)
  | str (s : String)
  | arr (xs : List JValue)
  | obj (fields : List (String × JValue))

/-- The `Todo` dataclass of `todo.py`: `id : int`, `title : str`,
`done : bool`.  Python ints are unbounded, hence `Int`. -/
structure Todo where
  id : Int
  title : String
  done : Bool
deriving DecidableEq

/-- Python's subscript `item[key]` with a string key, as used in
`TodoStorage.load`'s comprehension.  Objects (dicts) look the key up and
raise `KeyError` when absent; every other JSON value raises `TypeError`
(strings and lists only accept integer indices; ints, bools and null are
not subscriptable).  Objects coming out of `json.loads` have unique keys,
so first-match lookup is exact. -/
def JValue.getItem : JValue → String → Except PyErr JValue
  | .obj fields, k =>
      match fields.find? (fun p => p.1 == k) with
      | some p => .ok p.2
      | none => .error (.keyError k)
  | .str _, _ => .error (.typeError "string indices must be integers")
  | .arr _, _ => .error (.typeError "list indices must be integers")
  | .int _, _ => .error (.typeError "int object is not subscriptable")
  | .bool _, _ => .error (.typeError "bool object is not subscriptable")
  | .null, _ => .error (.typeError "NoneType object is not subscriptable")

/-- Python's `for item in data` over a JSON value: lists yield their
elements, dicts yield their keys, strings yield their one-character
substrings; ints, bools and null are not iterable (`TypeError`). -/
def JValue.iter : JValue → Except PyErr (List JValue)
  | .arr xs => .ok xs
  | .obj fields => .ok (fields.map (fun p => .str p.1))
  | .str s => .ok (s.toList.map (fun c => .str (String.singleton c)))
  | .int _ => .error (.typeError "int object is not iterable")
  | .bool _ => .error (.typeError "bool object is not iterable")
  | .null => .error (.typeError "NoneType object is not iterable")

/-- The contents of the store file, embedded by the outcome of
`json.loads` on them, which is all `TodoStorage.load` branches on:
`absent` is a missing file, `unparseable s` a file whose text `s` raises
`json.JSONDecodeError` (for example the empty string or `not valid json`),
and `parsed j` a file whose text parses to the JSON value `j`. -/
inductive FileContent where
  | absent
  | unparseable (s : String)
  | parsed (j : JValue)

/-- The record `Todo(id=item[...], title=item[...], done=item[...])` as
built by `load`'s comprehension.  Python dataclasses do not check the
annotated types at runtime, so each field is an arbitrary JSON value. -/
structure LoadedTodo where
  id : JValue
  title : JValue
  done : JValue

/-- One step of `load`'s comprehension:
`Todo(id=item["id"], title=item["title"], done=item["done"])`. -/
def loadItem (item : JValue) : Except PyErr LoadedTodo := do
  let i ← item.getItem "id"
  let t ← item.getItem "title"
  let d ← item.getItem "done"
  return ⟨i, t, d⟩

namespace TodoStorage

/-- Embedding of `TodoStorage.load` from `storage.py`: a missing file gives `[]`; a
file whose contents fail to parse raises `json.JSONDecodeError`, which the
`except` clause turns into `[]`; otherwise the comprehension converts each
item of the parsed value, and any error it raises (`TypeError`,
`KeyError`) propagates uncaught. -/
def load (file : FileContent) : Except PyErr (List LoadedTodo) :=
  match file with
  | .absent => .ok []
  | .unparseable _ => .ok []
  | .parsed j => do
      let items ← j.iter
      items.mapM loadItem

/-- The serialization in `TodoStorage.save`:
`[{"id": t.id, "title": t.title, "done": t.done} for t in todos]`. -/
def saveData (todos : List Todo) : JValue :=
  .arr (todos.map (fun t =>
    .obj [("id", .int t.id), ("title", .str t.title), ("done", .bool t.done)]))

/-- The store file after a successful `save todos`: `json.dumps` writes
text that `json.loads` parses back to the same value, so the file's parse
outcome is exactly `saveData todos`. -/
def saveFile (todos : List Todo) : FileContent :=
  .parsed (saveData todos)

end TodoStorage

/-- The view of a loaded record at the types the `Todo` dataclass
declares; `none` when a field holds a JSON value of the wrong type. -/
def LoadedTodo.toTodo? (l : LoadedTodo) : Option Todo :=
  match l.id, l.title, l.done with
  | .int i, .str s, .bool b => some ⟨i, s, b⟩
  | _, _, _ => none

/-- The image of a well-typed `Todo` among loaded records. -/
def Todo.toLoaded (t : Todo) : LoadedTodo :=
  ⟨.int t.id, .str t.title, .bool t.done⟩

/-- Whitespace as stripped by Python's `str.strip()`, restricted to the
ASCII range (Python also strips some further Unicode space characters;
none of them appear in this development). -/
def isPySpace (c : Char) : Bool :=
  c = ' ' || c = '\t' || c = '\n' || c = '\x0d' || c = '\x0b' || c = '\x0c'

/-- Python's `title.strip()`: remove leading and trailing whitespace. -/
def pyStrip (s : String) : String :=
  String.mk (((s.toList.dropWhile isPySpace).reverse.dropWhile isPySpace).reverse)

/-- A call the manager makes on its storage, in order of occurrence:
`self.storage.load()` or `self.storage.save(todos)`. -/
inductive StoreOp where
  | load
  | save (todos : List Todo)
deriving DecidableEq

/-- Outcome of one manager method: the returned value or raised
exception, the sequence the store holds afterwards, and the storage calls
performed.  A method that raises before saving leaves the store as it
was. -/
structure MgrResult (α : Type) where
  result : Except PyErr α
  store : List Todo
  ops : List StoreOp

namespace TodoManager

/-- The id computation in `TodoManager.add`:
`max(todo.id for todo in todos) + 1 if todos else 1`.  Python's `max`
over a nonempty sequence is a left fold of binary `max` started at the
first element. -/
def nextId (todos : List Todo) : Int :=
  match todos.map Todo.id with
  | [] => 1
  | x :: xs => xs.foldl max x + 1

/-- Embedding of `TodoManager.add` from `todo.py`, with the loaded store passed in as
`store` (the manager is stateless: it always works on what
`storage.load()` returns).  An empty-after-strip title raises
`ValueError("Title cannot be empty")` before any storage call; otherwise
the new todo is appended and the whole sequence saved. -/
def add (store : List Todo) (title : String) : MgrResult Todo :=
  if pyStrip title = "" then
    ⟨.error (.valueError "Title cannot be empty"), store, []⟩
  else
    let new_todo : Todo := ⟨nextId store, title, false⟩
    let todos := store ++ [new_todo]
    ⟨.ok new_todo, todos, [.load, .save todos]⟩

/-- A sequence of `add` calls threading the store through; returns the
final store and the ids assigned by the successful calls, in order. -/
def addAll (store : List Todo) (titles : List String) : List Todo × List Int :=
  match titles with
  | [] => (store, [])
  | s :: rest =>
    let r := add store s
    let (final, ids) := addAll r.store rest
    match r.result with
    | .ok t => (final, t.id :: ids)
    | .error _ => (final, ids)

/-- Embedding of `TodoManager.list_all` from `todo.py`: `return self.storage.load()`.
It performs one load, no save, and hands the loaded sequence back
unmodified. -/
def list_all (store : List Todo) : List Todo × List StoreOp :=
  (store, [StoreOp.load])

/-- Effect of `todo.done = True` through the reference `mark_done` holds:
the first record of the list whose id matches is the one the scan bound,
and the assignment updates it in place. -/
def markFirstDone : List Todo → Int → List Todo
  | [], _ => []
  | t :: ts, i =>
      if t.id == i then { t with done := true } :: ts
      else t :: markFirstDone ts i

/-- Embedding of `TodoManager.mark_done` from `todo.py`: load, linear scan for the
first record with the given id (`None` if absent), raise on a missing or
already-done record without saving, otherwise set `done = True` on that
record and save the whole sequence. -/
def mark_done (store : List Todo) (todo_id : Int) : MgrResult Unit :=
  match store.find? (fun t => t.id == todo_id) with
  | none =>
      ⟨.error (.valueError ("Todo #" ++ toString todo_id ++ " not found")),
        store, [StoreOp.load]⟩
  | some t =>
      if t.done then
        ⟨.error (.valueError ("Todo #" ++ toString todo_id ++ " is already done")),
          store, [StoreOp.load]⟩
      else
        let todos := markFirstDone store todo_id
        ⟨.ok (), todos, [StoreOp.load, StoreOp.save todos]⟩

end TodoManager

/-- File-system state seen by `TodoStorage.save`: the target path's
contents, whether the `mkstemp` temporary file is on disk, and whether
the descriptor `mkstemp` returned is still open. -/
structure FS where
  target : FileContent
  tempExists : Bool
  fdOpen : Bool

/-- The three fallible steps of `TodoStorage.save`, for failure
injection: `tempfile.mkstemp`, `Path(temp_path).write_text`, and
`Path(temp_path).replace`. -/
inductive SaveStep where
  | mkstemp
  | writeText
  | replace
deriving DecidableEq

namespace TodoStorage

/-- Execution of `TodoStorage.save` over the file-system state, with at
most one injected failure.  `mkstemp` runs before the `try`, so its
failure leaves the state untouched.  Inside the `try`, a failing
`write_text` or `replace` jumps to the `finally`, which only closes the
descriptor (`os.close(fd)` wrapped so it never raises); nothing removes
`temp_path`.  A successful `replace` renames the temporary file onto the
target, after which the `finally` closes the descriptor. -/
def saveRun (todos : List Todo) (failAt : Option SaveStep) (fs : FS) :
    Except PyErr Unit × FS :=
  if failAt = some SaveStep.mkstemp then
    (.error (.ioError "mkstemp failed"), fs)
  else
    let fs1 : FS := { fs with tempExists := true, fdOpen := true }
    if failAt = some SaveStep.writeText then
      (.error (.ioError "write_text failed"), { fs1 with fdOpen := false })
    else if failAt = some SaveStep.replace then
      (.error (.ioError "replace failed"), { fs1 with fdOpen := false })
    else
      (.ok (),
        { target := saveFile todos, tempExists := false, fdOpen := false })

end TodoStorage

/-! ### Helper lemmas -/

theorem mapM_loadItem_toLoaded (todos : List Todo) :
    (todos.map (fun t =>
        JValue.obj [("id", .int t.id), ("title", .str t.title), ("done", .bool t.done)])).mapM
      loadItem = .ok (todos.map Todo.toLoaded) := by
  induction todos with
  | nil => rfl
  | cons t ts ih =>
      simp only [List.map_cons, List.mapM_cons, ih]
      rfl

theorem load_saveFile (todos : List Todo) :
    TodoStorage.load (TodoStorage.saveFile todos) = .ok (todos.map Todo.toLoaded) := by
  simp only [TodoStorage.load, TodoStorage.saveFile, TodoStorage.saveData, JValue.iter]
  exact mapM_loadItem_toLoaded todos

theorem mapM_toTodo?_toLoaded (todos : List Todo) :
    (todos.map Todo.toLoaded).mapM LoadedTodo.toTodo? = some todos := by
  induction todos with
  | nil => rfl
  | cons t ts ih =>
      simp only [List.map_cons, List.mapM_cons, ih]
      rfl

/-! ### Claims about Storage -/

/-- C6: `Storage.load` returns the empty sequence, not an error, when the
store file does not exist, and also when the file exists but its contents
are empty or are not parseable as JSON (e.g. the text `not valid json`). -/
theorem C6_load_tolerates_missing_and_corrupt_files :
    TodoStorage.load FileContent.absent = .ok [] ∧
    TodoStorage.load (FileContent.unparseable "") = .ok [] ∧
    TodoStorage.load (FileContent.unparseable "not valid json") = .ok [] :=
  ⟨rfl, rfl, rfl⟩

/-- C9 counterexample: the claim lists the JSON text `\x7b\x7d` (an empty
object) among inputs on which `load` raises; in fact iterating an empty
dict yields no items, so `load` returns the empty sequence there. -/
theorem C9_counterexample_empty_object :
    TodoStorage.load (FileContent.parsed (JValue.obj [])) = .ok [] := rfl

/-- C9 (amended): `load`'s malformed-data tolerance covers only JSON
decode failures: on the JSON texts `5` and `[1, 2]` — valid JSON that is
not an array of objects with the keys id, title, done — it raises an
uncaught error, so it is not total over all file contents; the empty
object, however, yields the empty sequence rather than an error. -/
theorem C9_load_not_total_on_valid_json :
    (∃ e, TodoStorage.load (FileContent.parsed (JValue.int 5)) = .error e) ∧
    (∃ e, TodoStorage.load
        (FileContent.parsed (JValue.arr [JValue.int 1, JValue.int 2])) = .error e) ∧
    TodoStorage.load (FileContent.parsed (JValue.obj [])) = .ok [] :=
  ⟨⟨.typeError "int object is not iterable", rfl⟩,
   ⟨.typeError "int object is not subscriptable", rfl⟩, rfl⟩

/-- C3: evaluation of `save` at a failing write shows the divergence: the
`finally` block closes the `mkstemp` descriptor on every exit path, but
nothing removes `temp_path`, so a `write_text` failure propagates the
error and leaves the temporary file on disk (and the target untouched). -/
theorem C3_temp_file_leaked_on_write_failure :
    (TodoStorage.saveRun [⟨1, "Buy groceries", false⟩] (some SaveStep.writeText)
        ⟨FileContent.absent, false, false⟩).2.tempExists = true ∧
    (TodoStorage.saveRun [⟨1, "Buy groceries", false⟩] (some SaveStep.writeText)
        ⟨FileContent.absent, false, false⟩).2.fdOpen = false ∧
    (TodoStorage.saveRun [⟨1, "Buy groceries", false⟩] (some SaveStep.writeText)
        ⟨FileContent.absent, false, false⟩).1 = .error (.ioError "write_text failed") ∧
    (TodoStorage.saveRun [⟨1, "Buy groceries", false⟩] (some SaveStep.writeText)
        ⟨FileContent.absent, false, false⟩).2.target = FileContent.absent :=
  ⟨rfl, rfl, rfl, rfl⟩

/-- C1: saving any sequence of valid Todo records (ids at least 1 and
unique, titles with a non-whitespace character) succeeds, leaves the
target file holding exactly the serialized sequence, and loading it back
yields the same records in the same order with identical id, title and
done fields. -/
theorem C1_save_load_roundtrip (todos : List Todo)
    (hpos : ∀ t ∈ todos, 1 ≤ t.id)
    (huniq : (todos.map Todo.id).Nodup)
    (htitle : ∀ t ∈ todos, pyStrip t.title ≠ "")
    (fs : FS) :
    (TodoStorage.saveRun todos none fs).1 = .ok () ∧
    (TodoStorage.saveRun todos none fs).2.target = TodoStorage.saveFile todos ∧
    TodoStorage.load (TodoStorage.saveFile todos) = .ok (todos.map Todo.toLoaded) ∧
    (todos.map Todo.toLoaded).mapM LoadedTodo.toTodo? = some todos :=
  ⟨rfl, rfl, load_saveFile todos, mapM_toTodo?_toLoaded todos⟩

theorem C1_save_load_roundtrip_witness :
    (∀ t ∈ ([⟨1, "Buy groceries", false⟩, ⟨2, "Walk the dog", true⟩] : List Todo),
        1 ≤ t.id) ∧
    (([⟨1, "Buy groceries", false⟩, ⟨2, "Walk the dog", true⟩] : List Todo).map
        Todo.id).Nodup ∧
    (∀ t ∈ ([⟨1, "Buy groceries", false⟩, ⟨2, "Walk the dog", true⟩] : List Todo),
        pyStrip t.title ≠ "") ∧
    (TodoStorage.load (TodoStorage.saveFile
        [⟨1, "Buy groceries", false⟩, ⟨2, "Walk the dog", true⟩]) =
      .ok (([⟨1, "Buy groceries", false⟩, ⟨2, "Walk the dog", true⟩] : List Todo).map
        Todo.toLoaded) ∧
     (([⟨1, "Buy groceries", false⟩, ⟨2, "Walk the dog", true⟩] : List Todo).map
        Todo.toLoaded).mapM LoadedTodo.toTodo? =
      some [⟨1, "Buy groceries", false⟩, ⟨2, "Walk the dog", true⟩]) :=
  ⟨by decide, by decide, by decide,
    (C1_save_load_roundtrip
      [⟨1, "Buy groceries", false⟩, ⟨2, "Walk the dog", true⟩]
      (by decide) (by decide) (by decide)
      ⟨FileContent.absent, false, false⟩).2.2⟩

/-! ### Claims about the Manager -/

/-- C5: on a title that is empty or whitespace-only, `add` raises
`ValueError("Title cannot be empty")` and performs no storage call at all
(no load, no save), so the stored sequence is unchanged. -/
theorem C5_add_rejects_blank_title (store : List Todo) (title : String)
    (h : pyStrip title = "") :
    TodoManager.add store title =
      ⟨.error (.valueError "Title cannot be empty"), store, []⟩ := by
  simp [TodoManager.add, h]

theorem C5_add_rejects_blank_title_witness :
    pyStrip "   " = "" ∧
    TodoManager.add [⟨1, "a", false⟩] "   " =
      ⟨.error (.valueError "Title cannot be empty"), [⟨1, "a", false⟩], []⟩ :=
  ⟨by decide, C5_add_rejects_blank_title [⟨1, "a", false⟩] "   " (by decide)⟩

/-- C8: `list_all` hands back exactly the loaded sequence, unmodified and
in order, performing one load and no save; a second call on the unchanged
store returns an equal sequence, and for a file holding `store` the
sequence `Storage.load` returns is precisely the stored records. -/
theorem C8_list_all_is_read_only (store : List Todo) :
    (TodoManager.list_all store).1 = store ∧
    (TodoManager.list_all store).2 = [StoreOp.load] ∧
    (TodoManager.list_all ((TodoManager.list_all store).1)).1 =
      (TodoManager.list_all store).1 ∧
    TodoStorage.load (TodoStorage.saveFile store) = .ok (store.map Todo.toLoaded) ∧
    (store.map Todo.toLoaded).mapM LoadedTodo.toTodo? = some store :=
  ⟨rfl, rfl, rfl, load_saveFile store, mapM_toTodo?_toLoaded store⟩

/-- C10: `add` stores and returns the title verbatim, not trimmed: the
created record carries exactly the input string, leading and trailing
whitespace included. -/
theorem C10_add_keeps_title_verbatim (store : List Todo) (title : String)
    (h : pyStrip title ≠ "") :
    ∃ n : Int, (TodoManager.add store title).result = .ok ⟨n, title, false⟩ ∧
      (TodoManager.add store title).store = store ++ [⟨n, title, false⟩] := by
  refine ⟨TodoManager.nextId store, ?_, ?_⟩ <;> simp [TodoManager.add, h]

theorem C10_add_keeps_title_verbatim_witness :
    pyStrip "  padded title  " ≠ "" ∧
    ∃ n : Int, (TodoManager.add [] "  padded title  ").result =
        .ok ⟨n, "  padded title  ", false⟩ ∧
      (TodoManager.add [] "  padded title  ").store =
        [⟨n, "  padded title  ", false⟩] :=
  ⟨by decide, C10_add_keeps_title_verbatim [] "  padded title  " (by decide)⟩

theorem find?_id_append_first (l₁ l₂ : List Todo) (t : Todo) (i : Int)
    (hfirst : ∀ u ∈ l₁, u.id ≠ i) (hid : t.id = i) :
    (l₁ ++ t :: l₂).find? (fun u => u.id == i) = some t := by
  induction l₁ with
  | nil => simp [List.find?, hid]
  | cons a as ih =>
      have ha : (a.id == i) = false := by
        simpa using hfirst a (List.mem_cons_self a as)
      simp only [List.cons_append, List.find?, ha]
      exact ih (fun u hu => hfirst u (List.mem_cons_of_mem a hu))

theorem markFirstDone_append (l₁ l₂ : List Todo) (t : Todo) (i : Int)
    (hfirst : ∀ u ∈ l₁, u.id ≠ i) (hid : t.id = i) :
    TodoManager.markFirstDone (l₁ ++ t :: l₂) i =
      l₁ ++ { t with done := true } :: l₂ := by
  induction l₁ with
  | nil => simp [TodoManager.markFirstDone, hid]
  | cons a as ih =>
      have ha : (a.id == i) = false := by
        simpa using hfirst a (List.mem_cons_self a as)
      simp only [List.cons_append, TodoManager.markFirstDone, ha, if_false,
        Bool.false_eq_true]
      exact congrArg (a :: ·) (ih fun u hu => hfirst u (List.mem_cons_of_mem a hu))

/-- C4: `mark_done` raises "not found" when no record carries the id and
"already done" when the first (under unique ids, the only) record with
the id is already done; in both cases the result records one load, no
save, and the store unchanged — so a second `mark_done` on an
already-done id alters nothing. -/
theorem C4_mark_done_error_paths (store : List Todo) (todo_id : Int) :
    ((∀ t ∈ store, t.id ≠ todo_id) →
      TodoManager.mark_done store todo_id =
        ⟨.error (.valueError ("Todo #" ++ toString todo_id ++ " not found")),
          store, [StoreOp.load]⟩) ∧
    (∀ l₁ t l₂, store = l₁ ++ t :: l₂ → (∀ u ∈ l₁, u.id ≠ todo_id) →
      t.id = todo_id → t.done = true →
      TodoManager.mark_done store todo_id =
        ⟨.error (.valueError ("Todo #" ++ toString todo_id ++ " is already done")),
          store, [StoreOp.load]⟩) := by
  constructor
  · intro habs
    have hnone : store.find? (fun u => u.id == todo_id) = none := by
      rw [List.find?_eq_none]
      intro u hu
      simpa using habs u hu
    simp [TodoManager.mark_done, hnone]
  · intro l₁ t l₂ hdec hfirst hid hdone
    subst hdec
    have hfind := find?_id_append_first l₁ l₂ t todo_id hfirst hid
    simp [TodoManager.mark_done, hfind, hdone]

theorem C4_mark_done_error_paths_witness :
    TodoManager.mark_done [⟨1, "a", false⟩] 9 =
      ⟨.error (.valueError ("Todo #" ++ toString (9 : Int) ++ " not found")),
        [⟨1, "a", false⟩], [StoreOp.load]⟩ ∧
    TodoManager.mark_done [⟨1, "a", true⟩] 1 =
      ⟨.error (.valueError ("Todo #" ++ toString (1 : Int) ++ " is already done")),
        [⟨1, "a", true⟩], [StoreOp.load]⟩ :=
  ⟨(C4_mark_done_error_paths [⟨1, "a", false⟩] 9).1 (by decide),
   (C4_mark_done_error_paths [⟨1, "a", true⟩] 1).2 [] ⟨1, "a", true⟩ [] rfl
     (by simp) rfl rfl⟩

/-- C7: on a store containing an undone record with the sought id (and no
earlier record with that id, as unique ids guarantee), `mark_done`
succeeds, saves the sequence with exactly that record's `done` set to
true, and leaves its id and title, every other record, the length and the
order unchanged. -/
theorem C7_mark_done_success_frame (l₁ l₂ : List Todo) (t : Todo) (todo_id : Int)
    (hid : t.id = todo_id) (hfirst : ∀ u ∈ l₁, u.id ≠ todo_id)
    (hnot : t.done = false) :
    TodoManager.mark_done (l₁ ++ t :: l₂) todo_id =
      ⟨.ok (), l₁ ++ { t with done := true } :: l₂,
        [StoreOp.load, StoreOp.save (l₁ ++ { t with done := true } :: l₂)]⟩ ∧
    (l₁ ++ ({ t with done := true } : Todo) :: l₂).length = (l₁ ++ t :: l₂).length ∧
    ({ t with done := true } : Todo).id = t.id ∧
    ({ t with done := true } : Todo).title = t.title := by
  refine ⟨?_, by simp, rfl, rfl⟩
  have hfind := find?_id_append_first l₁ l₂ t todo_id hfirst hid
  have hmark := markFirstDone_append l₁ l₂ t todo_id hfirst hid
  simp [TodoManager.mark_done, hfind, hnot, hmark]

theorem C7_mark_done_success_frame_witness :
    TodoManager.mark_done [⟨1, "a", true⟩, ⟨2, "b", false⟩, ⟨3, "c", false⟩] 2 =
      ⟨.ok (), [⟨1, "a", true⟩, ⟨2, "b", true⟩, ⟨3, "c", false⟩],
        [StoreOp.load,
          StoreOp.save [⟨1, "a", true⟩, ⟨2, "b", true⟩, ⟨3, "c", false⟩]]⟩ ∧
    ([⟨1, "a", true⟩, ⟨2, "b", true⟩, ⟨3, "c", false⟩] : List Todo).length =
      ([⟨1, "a", true⟩, ⟨2, "b", false⟩, ⟨3, "c", false⟩] : List Todo).length ∧
    (⟨2, "b", true⟩ : Todo).id = (⟨2, "b", false⟩ : Todo).id ∧
    (⟨2, "b", true⟩ : Todo).title = (⟨2, "b", false⟩ : Todo).title :=
  C7_mark_done_success_frame [⟨1, "a", true⟩] [⟨3, "c", false⟩] ⟨2, "b", false⟩ 2
    rfl (by simp) rfl

theorem foldl_max_mem (xs : List Int) (x : Int) : xs.foldl max x ∈ x :: xs := by
  induction xs generalizing x with
  | nil => simp
  | cons a as ih =>
      simp only [List.foldl_cons]
      rcases List.mem_cons.mp (ih (max x a)) with h | h
      · rcases max_choice x a with hx | hx
        · rw [h, hx]; exact List.mem_cons_self _ _
        · rw [h, hx]; exact List.mem_cons_of_mem _ (List.mem_cons_self _ _)
      · exact List.mem_cons_of_mem _ (List.mem_cons_of_mem _ h)

theorem le_foldl_max (xs : List Int) (x : Int) :
    ∀ y ∈ x :: xs, y ≤ xs.foldl max x := by
  induction xs generalizing x with
  | nil =>
      intro y hy
      simp only [List.mem_singleton] at hy
      simp [hy]
  | cons a as ih =>
      intro y hy
      simp only [List.foldl_cons]
      have hhead : max x a ≤ as.foldl max (max x a) :=
        ih (max x a) (max x a) (List.mem_cons_self _ _)
      rcases List.mem_cons.mp hy with h | h
      · subst h; exact le_trans (le_max_left y a) hhead
      · rcases List.mem_cons.mp h with h2 | h2
        · subst h2; exact le_trans (le_max_right x y) hhead
        · exact ih (max x a) y (List.mem_cons_of_mem _ h2)

theorem nextId_append_fresh (store : List Todo) (s : String) :
    TodoManager.nextId (store ++ [⟨TodoManager.nextId store, s, false⟩]) =
      TodoManager.nextId store + 1 := by
  cases h : store.map Todo.id with
  | nil =>
      have hn : TodoManager.nextId store = 1 := by simp [TodoManager.nextId, h]
      rw [hn]
      simp [TodoManager.nextId, h, hn]
  | cons x xs =>
      have hn : TodoManager.nextId store = xs.foldl max x + 1 := by
        simp [TodoManager.nextId, h]
      rw [hn]
      simp only [TodoManager.nextId, List.map_append, h, List.map_cons,
        List.map_nil, List.cons_append, List.foldl_append, List.foldl_cons,
        List.foldl_nil]
      rw [max_eq_right (by omega)]

theorem addAll_ids_bounds (titles : List String) :
    ∀ store : List Todo, (∀ s ∈ titles, pyStrip s ≠ "") →
      (∀ i ∈ (TodoManager.addAll store titles).2, TodoManager.nextId store ≤ i) ∧
      List.Chain' (· < ·) (TodoManager.addAll store titles).2 ∧
      (titles ≠ [] →
        ((TodoManager.addAll store titles).2).head? =
          some (TodoManager.nextId store)) := by
  induction titles with
  | nil =>
      intro store _
      simp [TodoManager.addAll]
  | cons s rest ih =>
      intro store hv
      have hs : pyStrip s ≠ "" := hv s (List.mem_cons_self _ _)
      have hrest : ∀ u ∈ rest, pyStrip u ≠ "" :=
        fun u hu => hv u (List.mem_cons_of_mem _ hu)
      have hids : (TodoManager.addAll store (s :: rest)).2 =
          TodoManager.nextId store ::
            (TodoManager.addAll
              (store ++ [⟨TodoManager.nextId store, s, false⟩]) rest).2 := by
        simp [TodoManager.addAll, TodoManager.add, hs]
      have hnext := nextId_append_fresh store s
      obtain ⟨hge, hchain, _⟩ :=
        ih (store ++ [⟨TodoManager.nextId store, s, false⟩]) hrest
      rw [hnext] at hge
      refine ⟨?_, ?_, ?_⟩
      · intro i hi
        rw [hids] at hi
        rcases List.mem_cons.mp hi with h | h
        · omega
        · have := hge i h; omega
      · rw [hids]
        rw [List.chain'_cons']
        refine ⟨?_, hchain⟩
        intro b hb
        have := hge b (List.mem_of_mem_head? hb)
        omega
      · intro _
        rw [hids]
        rfl

/-- C2: on any store and valid title, `add` returns an undone todo
carrying that title, appended at the end, with id `(max existing id) + 1`
(the successor of an existing id that bounds all others), or id 1 on the
empty store, and saves the whole sequence; and across any sequence of
successful `add` calls starting from the empty store the assigned ids are
strictly increasing positive integers, the first being 1. -/
theorem C2_add_assigns_sequential_ids (store : List Todo) (title : String)
    (h : pyStrip title ≠ "") (titles : List String)
    (hts : ∀ s ∈ titles, pyStrip s ≠ "") :
    (∃ new : Todo,
      (TodoManager.add store title).result = .ok new ∧
      new.done = false ∧ new.title = title ∧
      (TodoManager.add store title).store = store ++ [new] ∧
      (TodoManager.add store title).ops =
        [StoreOp.load, StoreOp.save (store ++ [new])] ∧
      (store = [] → new.id = 1) ∧
      (store ≠ [] → ∃ t ∈ store, new.id = t.id + 1 ∧ ∀ u ∈ store, u.id ≤ t.id)) ∧
    ((∀ i ∈ (TodoManager.addAll [] titles).2, 1 ≤ i) ∧
     List.Chain' (· < ·) (TodoManager.addAll [] titles).2 ∧
     (titles ≠ [] → ((TodoManager.addAll [] titles).2).head? = some 1)) := by
  constructor
  · refine ⟨⟨TodoManager.nextId store, title, false⟩, ?_, rfl, rfl, ?_, ?_, ?_, ?_⟩
    · simp [TodoManager.add, h]
    · simp [TodoManager.add, h]
    · simp [TodoManager.add, h]
    · intro he
      subst he
      rfl
    · intro hne
      cases hmap : store.map Todo.id with
      | nil => exact absurd (List.map_eq_nil_iff.mp hmap) hne
      | cons x xs =>
          have hid : TodoManager.nextId store = xs.foldl max x + 1 := by
            simp [TodoManager.nextId, hmap]
          have hmem : xs.foldl max x ∈ store.map Todo.id := by
            rw [hmap]; exact foldl_max_mem xs x
          obtain ⟨t, ht, hteq⟩ := List.mem_map.mp hmem
          refine ⟨t, ht, by rw [hid, hteq], ?_⟩
          intro u hu
          have hu' : u.id ∈ x :: xs := by
            rw [← hmap]; exact List.mem_map_of_mem Todo.id hu
          rw [hteq]
          exact le_foldl_max xs x u.id hu'
  · obtain ⟨hge, hchain, hhead⟩ := addAll_ids_bounds titles [] hts
    exact ⟨hge, hchain, hhead⟩

theorem C2_add_assigns_sequential_ids_witness :
    pyStrip "x" ≠ "" ∧ (∀ s ∈ ["p", "q"], pyStrip s ≠ "") ∧
    ((∃ new : Todo,
      (TodoManager.add [⟨2, "a", true⟩] "x").result = .ok new ∧
      new.done = false ∧ new.title = "x" ∧
      (TodoManager.add [⟨2, "a", true⟩] "x").store = [⟨2, "a", true⟩] ++ [new] ∧
      (TodoManager.add [⟨2, "a", true⟩] "x").ops =
        [StoreOp.load, StoreOp.save ([⟨2, "a", true⟩] ++ [new])] ∧
      (([⟨2, "a", true⟩] : List Todo) = [] → new.id = 1) ∧
      (([⟨2, "a", true⟩] : List Todo) ≠ [] →
        ∃ t ∈ ([⟨2, "a", true⟩] : List Todo), new.id = t.id + 1 ∧
          ∀ u ∈ ([⟨2, "a", true⟩] : List Todo), u.id ≤ t.id)) ∧
    ((∀ i ∈ (TodoManager.addAll [] ["p", "q"]).2, 1 ≤ i) ∧
     List.Chain' (· < ·) (TodoManager.addAll [] ["p", "q"]).2 ∧
     ((["p", "q"] : List String) ≠ [] →
       ((TodoManager.addAll [] ["p", "q"]).2).head? = some 1))) :=
  ⟨by decide, by decide,
    C2_add_assigns_sequential_ids [⟨2, "a", true⟩] "x" (by decide) ["p", "q"]
      (by decide)⟩

end TrivialTodo
